import Mathlib

/-
  Verification development for the ApexBrain strategy engine.

  Shallow embedding of the core decision and simulation code:
  - src/core/mcda_engine_v2.py   (F1DecisionEngine: criteria, weights, utility, generator)
  - src/core/strategy/strategy_simulator.py (StrategyOracle: Monte-Carlo race simulator)

  Conventions of the embedding:
  - Python floats are modelled as rationals; all float arithmetic in the source is
    exact on the constants involved, so the rational model is faithful.
  - Python dict lookup that can raise KeyError is modelled with Option / Except.
  - numpy random draws are modelled as explicit inputs (a stream of naturals for the
    candidate generator, an explicit per-lap noise function for the simulator).
  - The float power tyre_age ** 1.3 of the simulator is modelled by an explicit
    parameter powf : Nat -> Rat standing for the map age -> age ** 1.3; no claim in
    scope depends on its values, and theorems quantify over it.
-/

open List

-- ==========================================
-- Data structures (mcda_engine_v2.py, section 1)
-- ==========================================

structure CircuitParams where
  name : String
  n_laps : ℕ
  track_length_km : ℚ
  base_lap_time : ℚ
  pit_loss : ℚ
  overtake_delta : ℚ
  abrasivity : ℚ
deriving DecidableEq

structure CarParams where
  fuel_start_kg : ℚ
  fuel_burn_kg_lap : ℚ
  fuel_effect_s_kg : ℚ
  pit_reliability_sigma : ℚ
deriving DecidableEq

/- grid_position and n_drivers are integers in the source; grid_position is only
   used in divisions, so it is carried as a rational. -/
structure EnvParams where
  track_temp : ℚ
  rain_prob : ℚ
  sc_prob : ℚ
  vsc_prob : ℚ
  n_drivers : ℕ
  grid_position : ℚ
deriving DecidableEq

structure TireParams where
  compound : String
  base_pace : ℚ
  deg_per_lap : ℚ
  max_life : ℕ
  warmup_loss : ℚ
deriving DecidableEq

/- The k_factors dict of the engine constructor, read at the fixed keys
   "safety", "traffic", "robust". -/
structure KFactors where
  safety : ℚ
  traffic : ℚ
  robust : ℚ
deriving DecidableEq

/- One entry of a strategy list: the dicts {'compound': c, 'laps': l}. -/
structure Stint where
  compound : String
  laps : ℕ
deriving DecidableEq

/- The 'Normalized_Scores' dict attached by calculate_utility. -/
structure NormScores where
  c1 : ℚ
  c2 : ℚ
  c3 : ℚ
  c4 : ℚ
deriving DecidableEq

/- The evaluated-strategy dict produced by evaluate_strategy. -/
structure EvalStrategy where
  name : String
  c1_time : ℚ
  c2_risk : ℚ
  c3_traffic : ℚ
  c4_flex : ℚ
  stints : List Stint
  utility : ℚ
  normalized : NormScores
deriving DecidableEq

/- The dict returned by calculate_dynamic_weights. -/
structure WeightVector where
  alpha_1 : ℚ
  alpha_2 : ℚ
  alpha_3 : ℚ
  alpha_4 : ℚ
deriving DecidableEq

/- The engine object: its constructor parameters.  tires is a dict
   String -> TireParams, modelled as a partial lookup. -/
structure F1DecisionEngine where
  circuit : CircuitParams
  car : CarParams
  env : EnvParams
  tires : String → Option TireParams
  k_factors : KFactors

-- ==========================================
-- Python min / max over a list (used for batch normalization and argmin)
-- ==========================================

/- Python min(list) for a non-empty list; 0 is a junk value for the empty list,
   where Python would raise and which no modelled call site reaches. -/
def pyMin (l : List ℚ) : ℚ := (l.minimum).untop' 0

/- Python max(list), same convention as pyMin. -/
def pyMax (l : List ℚ) : ℚ := (l.maximum).unbot' 0

-- ==========================================
-- Dynamic weighting (calculate_dynamic_weights)
-- ==========================================

def w2_raw (e : F1DecisionEngine) : ℚ :=
  e.k_factors.safety * (e.env.track_temp / 60) * (e.circuit.abrasivity / 5)

def w3_raw (e : F1DecisionEngine) : ℚ :=
  e.k_factors.traffic * (e.env.grid_position / 20)

def w4_raw (e : F1DecisionEngine) : ℚ :=
  e.k_factors.robust * (e.env.rain_prob + e.env.sc_prob + e.env.vsc_prob)

/- total_w = w1 + w2 + w3 + w4 with w1 = 1.0 fixed. -/
def total_w (e : F1DecisionEngine) : ℚ := 1 + w2_raw e + w3_raw e + w4_raw e

def calculate_dynamic_weights (e : F1DecisionEngine) : WeightVector :=
  { alpha_1 := 1 / total_w e
    alpha_2 := w2_raw e / total_w e
    alpha_3 := w3_raw e / total_w e
    alpha_4 := w4_raw e / total_w e }

-- ==========================================
-- Utility and batch ranking (calculate_utility)
-- ==========================================

def c1_list (ss : List EvalStrategy) : List ℚ := ss.map (·.c1_time)

def c1_min (ss : List EvalStrategy) : ℚ := pyMin (c1_list ss)

def c1_max (ss : List EvalStrategy) : ℚ := pyMax (c1_list ss)

/- range_t = max_t - min_t if max_t != min_t else 1.0 -/
def c1_range (ss : List EvalStrategy) : ℚ :=
  if c1_max ss ≠ c1_min ss then c1_max ss - c1_min ss else 1

/- The per-member body of the scoring loop of calculate_utility. -/
def scoreStrat (w : WeightVector) (mn rng : ℚ) (s : EvalStrategy) : EvalStrategy :=
  let c1_score := (s.c1_time - mn) / rng * 10
  let c2_score := min 10 (s.c2_risk / 10)
  let u := w.alpha_1 * c1_score + w.alpha_2 * c2_score
             + w.alpha_3 * s.c3_traffic - w.alpha_4 * s.c4_flex
  { s with utility := u
           normalized := { c1 := c1_score, c2 := c2_score,
                           c3 := s.c3_traffic, c4 := s.c4_flex } }

/- The sort key: ascending Utility_Score. -/
def utLE (a b : EvalStrategy) : Prop := a.utility ≤ b.utility

instance : DecidableRel utLE := fun a b => inferInstanceAs (Decidable (a.utility ≤ b.utility))

instance : IsTotal EvalStrategy utLE := ⟨fun a b => le_total a.utility b.utility⟩

instance : IsTrans EvalStrategy utLE := ⟨fun _ _ _ h1 h2 => le_trans h1 h2⟩

/- calculate_utility: batch normalization, scoring, and the stable ascending sort
   (Python sorted is stable; insertionSort with a non-strict key is the stable sort). -/
def calculate_utility (e : F1DecisionEngine) (ss : List EvalStrategy) : List EvalStrategy :=
  if ss.isEmpty then []
  else insertionSort utLE
    (ss.map (scoreStrat (calculate_dynamic_weights e) (c1_min ss) (c1_range ss)))

-- ==========================================
-- Criterion C1: deterministic race time (_calculate_c1_time)
-- ==========================================

/- The loop of _calculate_c1_time: state (isFirst, current_time, fuel); the tires
   dict lookup raises KeyError for an unknown compound, modelled as Except.error. -/
def c1_loop (e : F1DecisionEngine) : List Stint → Bool → ℚ → ℚ → Except String ℚ
  | [], _, time, _ => .ok time
  | st :: rest, isFirst, time, fuel =>
    match e.tires st.compound with
    | none => .error ("KeyError: " ++ st.compound)
    | some tire =>
      let time1 := if isFirst then time else time + e.circuit.pit_loss
      let time2 := time1 + tire.warmup_loss
      let lapSum := ((List.range st.laps).map (fun (i : ℕ) =>
          e.circuit.base_lap_time + tire.base_pace
            + (fuel - (i : ℚ) * e.car.fuel_burn_kg_lap) * e.car.fuel_effect_s_kg
            + (i : ℚ) * tire.deg_per_lap)).sum
      c1_loop e rest false (time2 + lapSum) (fuel - (st.laps : ℚ) * e.car.fuel_burn_kg_lap)

def c1_time (e : F1DecisionEngine) (strategy : List Stint) : Except String ℚ :=
  c1_loop e strategy true 0 e.car.fuel_start_kg

/- The per-lap fuel masses fed into the t_fuel term of _calculate_c1_time, in lap
   order: the expression fuel - i * fuel_burn_kg_lap for each lap of each stint,
   with fuel updated by n_laps * fuel_burn_kg_lap after every stint. -/
def fuel_masses (car : CarParams) : List Stint → ℚ → List ℚ
  | [], _ => []
  | st :: rest, fuel =>
    ((List.range st.laps).map (fun (i : ℕ) => fuel - (i : ℚ) * car.fuel_burn_kg_lap))
      ++ fuel_masses car rest (fuel - (st.laps : ℚ) * car.fuel_burn_kg_lap)

/- Modelled from the spec: the variant of the section 4.1 physics in which the fuel
   mass entering the per-lap fuel term is clamped at 0 (the source has no such
   clamp); used only to compare against c1_time. -/
def c1_loop_clamped (e : F1DecisionEngine) : List Stint → Bool → ℚ → ℚ → Except String ℚ
  | [], _, time, _ => .ok time
  | st :: rest, isFirst, time, fuel =>
    match e.tires st.compound with
    | none => .error ("KeyError: " ++ st.compound)
    | some tire =>
      let time1 := if isFirst then time else time + e.circuit.pit_loss
      let time2 := time1 + tire.warmup_loss
      let lapSum := ((List.range st.laps).map (fun (i : ℕ) =>
          e.circuit.base_lap_time + tire.base_pace
            + max 0 (fuel - (i : ℚ) * e.car.fuel_burn_kg_lap) * e.car.fuel_effect_s_kg
            + (i : ℚ) * tire.deg_per_lap)).sum
      c1_loop_clamped e rest false (time2 + lapSum) (fuel - (st.laps : ℚ) * e.car.fuel_burn_kg_lap)

def c1_time_clamped (e : F1DecisionEngine) (strategy : List Stint) : Except String ℚ :=
  c1_loop_clamped e strategy true 0 e.car.fuel_start_kg

-- ==========================================
-- Criteria C2, C3, C4 (_calculate_c2_safety_risk, _c3, _c4)
-- ==========================================

/- The risk_ratios list of _calculate_c2_safety_risk (tire lookups can fail). -/
def c2_loop (e : F1DecisionEngine) : List Stint → Except String (List ℚ)
  | [] => .ok []
  | st :: rest =>
    match e.tires st.compound with
    | none => .error ("KeyError: " ++ st.compound)
    | some tire =>
      match c2_loop e rest with
      | .error msg => .error msg
      | .ok rs => .ok (((st.laps : ℚ) / (tire.max_life : ℚ) * 100) :: rs)

def c2_safety_risk (e : F1DecisionEngine) (strategy : List Stint) : Except String ℚ :=
  (c2_loop e strategy).map pyMax

/- _calculate_c3_traffic_score; n_stops = len(strategy) - 1 as integers. -/
def c3_traffic_score (e : F1DecisionEngine) (strategy : List Stint) : ℚ :=
  let n_stops : ℚ := (strategy.length : ℚ) - 1
  let grid_factor := e.env.grid_position / 20
  let delta_factor := e.circuit.overtake_delta / (3/2)
  min 10 (grid_factor * 2 + n_stops * grid_factor * delta_factor * (5/2))

/- The total_width accumulation of _calculate_c4_flexibility_score. -/
def c4_loop (e : F1DecisionEngine) : List Stint → Except String (List ℚ)
  | [] => .ok []
  | st :: rest =>
    match e.tires st.compound with
    | none => .error ("KeyError: " ++ st.compound)
    | some tire =>
      match c4_loop e rest with
      | .error msg => .error msg
      | .ok ws => .ok (max 0 ((tire.max_life : ℚ) * (9/10) - (st.laps : ℚ)) :: ws)

def c4_flexibility_score (e : F1DecisionEngine) (strategy : List Stint) : Except String ℚ :=
  (c4_loop e strategy).map (fun ws => min 10 (ws.sum / (strategy.length : ℚ) / 15 * 10))

-- ==========================================
-- Strategy naming and evaluation (format_strategy_string, evaluate_strategy)
-- ==========================================

/- Icon choice; the source tests substring containment of SOFT / MEDIUM in the
   compound name, which coincides with equality on the three compound strings the
   generator produces. -/
def compound_icon (c : String) : String :=
  if c = "SOFT" then "🔴" else if c = "MEDIUM" then "🟡" else "⚪"

def format_strategy_string (strategy : List Stint) : String :=
  String.intercalate " ➝ "
    (strategy.map (fun s =>
      compound_icon s.compound ++ " " ++ String.singleton s.compound.front
        ++ "(" ++ toString s.laps ++ ")"))

def evaluate_strategy (e : F1DecisionEngine) (sd : List Stint) : Except String EvalStrategy :=
  match c1_time e sd with
  | .error msg => .error msg
  | .ok c1 =>
    match c2_safety_risk e sd with
    | .error msg => .error msg
    | .ok c2 =>
      match c4_flexibility_score e sd with
      | .error msg => .error msg
      | .ok c4 =>
        .ok { name := format_strategy_string sd
              c1_time := c1
              c2_risk := c2
              c3_traffic := c3_traffic_score e sd
              c4_flex := c4
              stints := sd
              utility := 0
              normalized := { c1 := 0, c2 := 0, c3 := 0, c4 := 0 } }

-- ==========================================
-- Candidate generator (generate_optimal_strategies)
-- ==========================================

/- random.randint(lo, hi) over naturals: any value of the inclusive range is
   reachable; the draw d selects one. -/
def randintN (lo hi d : ℕ) : ℕ :=
  if hi + 1 - lo = 0 then lo else lo + d % (hi + 1 - lo)

/- random.randint(lo, hi) over integers (used for randint(-5, 5)). -/
def randintZ (lo hi : ℤ) (d : ℕ) : ℤ := lo + (d : ℤ) % (hi + 1 - lo)

def gen_compounds : List String := ["SOFT", "MEDIUM", "HARD"]

/- random.sample(compounds, 2): two draws pick two distinct compounds in order. -/
def sample2 (d1 d2 : ℕ) : String × String :=
  let i1 := d1 % 3
  let c1 := gen_compounds.getD i1 "SOFT"
  let rest := gen_compounds.eraseIdx i1
  (c1, rest.getD (d2 % 2) "SOFT")

/- random.choice(compounds). -/
def choice1 (d : ℕ) : String := gen_compounds.getD (d % 3) "SOFT"

/- One iteration of the 1-stop loop; None models the continue branches.  A missing
   compound entry in the tires dict would raise KeyError in the source; it is
   modelled as a discarded draw and the theorems assume the three compounds are
   present, making the branch unreachable. -/
def oneStopCandidate (e : F1DecisionEngine) (d1 d2 d3 : ℕ) : Option EvalStrategy :=
  let total := e.circuit.n_laps
  let pit_lap := randintN (total / 4) (3 * total / 4) d1
  let cs := sample2 d2 d3
  let l1 := pit_lap
  let l2 := total - pit_lap
  match e.tires cs.1, e.tires cs.2 with
  | some t1, some t2 =>
    if l1 > t1.max_life then none
    else if l2 > t2.max_life then none
    else
      match evaluate_strategy e [⟨cs.1, l1⟩, ⟨cs.2, l2⟩] with
      | .ok v => some v
      | .error _ => none
  | _, _ => none

/- One iteration of the 2-stop loop; lap counts live in ℤ until the >= 5 check. -/
def twoStopCandidate (e : F1DecisionEngine) (d1 d2 d3 d4 d5 : ℕ) : Option EvalStrategy :=
  let total := e.circuit.n_laps
  let l1 : ℤ := (total / 3 : ℕ) + randintZ (-5) 5 d1
  let l2 : ℤ := (total / 3 : ℕ) + randintZ (-5) 5 d2
  let l3 : ℤ := (total : ℤ) - l1 - l2
  if l1 < 5 ∨ l2 < 5 ∨ l3 < 5 then none
  else
    let ca := choice1 d3
    let cb := choice1 d4
    let cc := choice1 d5
    if ca = cb ∧ cb = cc then none   -- len(set(c_seq)) < 2
    else
      match e.tires ca, e.tires cb, e.tires cc with
      | some t1, some t2, some t3 =>
        if l1 > (t1.max_life : ℤ) then none
        else if l2 > (t2.max_life : ℤ) then none
        else if l3 > (t3.max_life : ℤ) then none
        else
          match evaluate_strategy e [⟨ca, l1.toNat⟩, ⟨cb, l2.toNat⟩, ⟨cc, l3.toNat⟩] with
          | .ok v => some v
          | .error _ => none
      | _, _, _ => none

/- The unique-top-5 post-pass: keep first occurrence of each Name in ranked order,
   stop once 5 strategies are collected. -/
def uniqueTopAux : List EvalStrategy → List String → ℕ → List EvalStrategy
  | [], _, _ => []
  | r :: rest, seen, cnt =>
    if r.name ∈ seen then uniqueTopAux rest seen cnt
    else if cnt + 1 ≥ 5 then [r]
    else r :: uniqueTopAux rest (r.name :: seen) (cnt + 1)

/- generate_optimal_strategies with the random stream made explicit: every loop
   iteration reads its draws from dedicated positions of rng, so every combination
   of in-range draw values reachable by the source is reachable here and
   conversely. -/
def generate_optimal_strategies (e : F1DecisionEngine) (n_gen : ℕ) (rng : ℕ → ℕ) :
    List EvalStrategy :=
  let half := n_gen / 2
  let ones := (List.range half).filterMap
    (fun j => oneStopCandidate e (rng (3 * j)) (rng (3 * j + 1)) (rng (3 * j + 2)))
  let base := 3 * half
  let twos := (List.range half).filterMap
    (fun j => twoStopCandidate e (rng (base + 5 * j)) (rng (base + 5 * j + 1))
      (rng (base + 5 * j + 2)) (rng (base + 5 * j + 3)) (rng (base + 5 * j + 4)))
  uniqueTopAux (calculate_utility e (ones ++ twos)) [] 0

-- ==========================================
-- Monte-Carlo simulator (strategy_simulator.py, StrategyOracle)
-- ==========================================

structure CompoundProfile where
  name : String
  base_pace : ℚ
  deg_per_lap : ℚ
  max_life : ℕ
deriving DecidableEq

/- Python str.upper() on the ASCII compound names (String.toUpper of the library
   does not reduce in the kernel; this is the same function on ASCII data). -/
def strUpper (s : String) : String := String.mk (s.data.map Char.toUpper)

def FUEL_CORRECTION : ℚ := 7/200

def PIT_LOSS : ℚ := 45/2

/- The fixed self.compounds dict of StrategyOracle, looked up with dict.get. -/
def oracle_compounds (s : String) : Option CompoundProfile :=
  if s = "SOFT" then some ⟨"Soft", 0, 12/100, 20⟩
  else if s = "MEDIUM" then some ⟨"Medium", 6/10, 8/100, 35⟩
  else if s = "HARD" then some ⟨"Hard", 11/10, 4/100, 55⟩
  else none

/- One lap of simulate_stint: 90.0 baseline + compound offset + nonlinear
   degradation - linear fuel gain + noise.  powf i stands for the float value
   (i : float) ** 1.3 and noise i for the normal draw of that lap. -/
def stint_lap_time (c : CompoundProfile) (startAge : ℕ) (noise : ℕ → ℚ) (powf : ℕ → ℚ)
    (i : ℕ) : ℚ :=
  (90 + c.base_pace) + c.deg_per_lap * powf (i + startAge)
    - FUEL_CORRECTION * (i : ℚ) + noise i

def simulate_stint (compound : String) (laps startAge : ℕ) (noise : ℕ → ℚ)
    (powf : ℕ → ℚ) : Except String (List ℚ) :=
  match oracle_compounds (strUpper compound) with
  | none => .error ("Unknown Compound: " ++ compound)
  | some c => .ok ((List.range laps).map (stint_lap_time c startAge noise powf))

/- The loop of run_strategy; state (stint index as first-stint flag, current_lap);
   noise idx is the noise stream of stint number idx.  Indexing stint_times[0] on
   an empty array raises in the source, modelled as the IndexError branch. -/
def run_aux (powf : ℕ → ℚ) (noise : ℕ → ℕ → ℚ) (total : ℕ) :
    List (String × ℕ) → ℕ → ℕ → Bool → Except String (List ℚ × ℚ)
  | [], _, _, _ => .ok ([], 0)
  | (comp, sl) :: rest, stintIdx, current, isFirst =>
    let sl2 := if current + sl > total then total - current else sl
    match simulate_stint comp sl2 0 (noise stintIdx) powf with
    | .error msg => .error msg
    | .ok st =>
      match isFirst, st with
      | true, st =>
        if current + sl2 ≥ total then .ok (st, st.sum)
        else
          match run_aux powf noise total rest (stintIdx + 1) (current + sl2) false with
          | .error msg => .error msg
          | .ok (arr, ct) => .ok (st ++ arr, st.sum + ct)
      | false, [] => .error "IndexError: index 0 is out of bounds"
      | false, t :: ts =>
        let st2 := (t + PIT_LOSS) :: ts
        if current + sl2 ≥ total then .ok (st2, PIT_LOSS + st2.sum)
        else
          match run_aux powf noise total rest (stintIdx + 1) (current + sl2) false with
          | .error msg => .error msg
          | .ok (arr, ct) => .ok (st2 ++ arr, PIT_LOSS + st2.sum + ct)

def run_strategy (plan : List (String × ℕ)) (total_laps : ℕ) (noise : ℕ → ℕ → ℚ)
    (powf : ℕ → ℚ) : Except String (List ℚ × ℚ) :=
  run_aux powf noise total_laps plan 0 0 true

/- Per-strategy result entry.  The p25 / p75 / std_dev fields of the source use
   numpy percentile and a square root; no claim refers to them and they are
   omitted; win_prob is a constant 0 placeholder in the source. -/
structure SimStats where
  mean_time : ℚ
  is_recommended : Bool
deriving DecidableEq

/- The inner n_sims loop of monte_carlo_simulation for one strategy: the list of
   cumulative totals; noiseT t is the noise of trial t. -/
def simTotals (powf : ℕ → ℚ) (noiseT : ℕ → ℕ → ℕ → ℚ) (total : ℕ)
    (plan : List (String × ℕ)) : ℕ → ℕ → Except String (List ℚ)
  | _, 0 => .ok []
  | t, m + 1 =>
    match run_strategy plan total (noiseT t) powf with
    | .error msg => .error msg
    | .ok pr =>
      match simTotals powf noiseT total plan (t + 1) m with
      | .error msg => .error msg
      | .ok ts => .ok (pr.2 :: ts)

/- The outer loop: mean total time per named strategy, in insertion order;
   noise k t is the noise of trial t of strategy number k. -/
def mc_means (powf : ℕ → ℚ) (noise : ℕ → ℕ → ℕ → ℕ → ℚ) (total n_sims : ℕ) :
    List (String × List (String × ℕ)) → ℕ → Except String (List (String × ℚ))
  | [], _ => .ok []
  | (nm, plan) :: rest, k =>
    match simTotals powf (noise k) total plan 0 n_sims with
    | .error msg => .error msg
    | .ok tots =>
      match mc_means powf noise total n_sims rest (k + 1) with
      | .error msg => .error msg
      | .ok ms => .ok ((nm, tots.sum / (n_sims : ℚ)) :: ms)

/- best_strat = min(results, key=mean): Python min returns the first key achieving
   the minimal value in insertion order; exactly that entry gets is_recommended,
   every other entry lacks the key (falsy). -/
def mc_mark (mv : ℚ) : List (String × ℚ) → List (String × SimStats)
  | [] => []
  | (nm, mu) :: rest =>
    if mu = mv then (nm, ⟨mu, true⟩) :: rest.map (fun p => (p.1, ⟨p.2, false⟩))
    else (nm, ⟨mu, false⟩) :: mc_mark mv rest

def monte_carlo_simulation (powf : ℕ → ℚ) (noise : ℕ → ℕ → ℕ → ℕ → ℚ)
    (strategies : List (String × List (String × ℕ))) (n_sims total_laps : ℕ) :
    Except String (List (String × SimStats)) :=
  match mc_means powf noise total_laps n_sims strategies 0 with
  | .error msg => .error msg
  | .ok ms => .ok (mc_mark (pyMin (ms.map (·.2))) ms)

-- ==========================================
-- Concrete inputs used by witnesses and counterexamples
-- ==========================================

/- A 10-lap race with generous tire lives: exposes the missing 5-lap minimum of
   the 1-stop generator branch. -/
def e_gen : F1DecisionEngine :=
  { circuit := ⟨"R", 10, 5, 90, 20, 1, 3⟩
    car := ⟨100, 1, 3/100, 0⟩
    env := ⟨30, 0, 0, 0, 20, 10⟩
    tires := fun c =>
      if c = "SOFT" then some ⟨"SOFT", 0, 12/100, 55, 1/2⟩
      else if c = "MEDIUM" then some ⟨"MEDIUM", 6/10, 8/100, 55, 1/2⟩
      else if c = "HARD" then some ⟨"HARD", 11/10, 4/100, 55, 1/2⟩
      else none
    k_factors := ⟨1, 1, 1⟩ }

/- A car that starts with 1 kg of fuel and burns 1 kg per lap: a 3-lap stint
   overdraws the tank.  fuel_effect 1 makes the fuel term equal the fuel mass. -/
def e_fuel : F1DecisionEngine :=
  { circuit := ⟨"T", 3, 5, 0, 0, 1, 2⟩
    car := ⟨1, 1, 1, 0⟩
    env := ⟨0, 0, 0, 0, 20, 1⟩
    tires := fun c => if c = "SOFT" then some ⟨"SOFT", 0, 0, 100, 0⟩ else none
    k_factors := ⟨0, 0, 0⟩ }

def plan_fuel : List Stint := [⟨"SOFT", 3⟩]

def plan_bad : List Stint := [⟨"SOFT", 1⟩, ⟨"MEDIUM", 2⟩]

def s_a : EvalStrategy := ⟨"A", 451, 25, 3, 5, [⟨"SOFT", 5⟩], 0, ⟨0, 0, 0, 0⟩⟩

def s_b : EvalStrategy := ⟨"B", 455, 50, 4, 6, [⟨"MEDIUM", 5⟩], 0, ⟨0, 0, 0, 0⟩⟩

def s_c : EvalStrategy := ⟨"C", 451, 60, 2, 7, [⟨"HARD", 5⟩], 0, ⟨0, 0, 0, 0⟩⟩

def mc_strats : List (String × List (String × ℕ)) :=
  [("A", [("SOFT", 1)]), ("B", [("MEDIUM", 1)])]

def mc_res : List (String × SimStats) := [("A", ⟨90, true⟩), ("B", ⟨453/5, false⟩)]

-- ==========================================
-- Helper lemmas: Python min / max over lists
-- ==========================================

theorem pyMin_mem {l : List ℚ} (h : l ≠ []) : pyMin l ∈ l := by
  cases hm : l.minimum with
  | top => exact absurd (List.minimum_eq_top.mp hm) h
  | coe m =>
    have hmem : m ∈ l := List.minimum_mem hm
    simpa [pyMin, hm] using hmem

theorem pyMin_le {l : List ℚ} {a : ℚ} (ha : a ∈ l) : pyMin l ≤ a := by
  cases hm : l.minimum with
  | top =>
    have : l = [] := List.minimum_eq_top.mp hm
    simp [this] at ha
  | coe m =>
    have := List.minimum_le_of_mem ha hm
    simpa [pyMin, hm] using this

theorem pyMax_mem {l : List ℚ} (h : l ≠ []) : pyMax l ∈ l := by
  cases hm : l.maximum with
  | bot => exact absurd (List.maximum_eq_bot.mp hm) h
  | coe m =>
    have hmem : m ∈ l := List.maximum_mem hm
    simpa [pyMax, hm] using hmem

theorem le_pyMax {l : List ℚ} {a : ℚ} (ha : a ∈ l) : a ≤ pyMax l := by
  cases hm : l.maximum with
  | bot =>
    have : l = [] := List.maximum_eq_bot.mp hm
    simp [this] at ha
  | coe m =>
    have := List.le_maximum_of_mem ha hm
    simpa [pyMax, hm] using this

theorem pyMin_perm {l₁ l₂ : List ℚ} (h : l₁.Perm l₂) : pyMin l₁ = pyMin l₂ := by
  have hmin : l₁.minimum = l₂.minimum := by
    have h1 : l₁.minimum ≤ l₂.minimum := List.le_minimum_of_forall_le fun a ha =>
      List.minimum_le_of_mem' (h.mem_iff.mpr ha)
    have h2 : l₂.minimum ≤ l₁.minimum := List.le_minimum_of_forall_le fun a ha =>
      List.minimum_le_of_mem' (h.mem_iff.mp ha)
    exact h1.antisymm h2
  simp [pyMin, hmin]

theorem pyMax_perm {l₁ l₂ : List ℚ} (h : l₁.Perm l₂) : pyMax l₁ = pyMax l₂ := by
  have hmax : l₁.maximum = l₂.maximum := by
    have h1 : l₁.maximum ≤ l₂.maximum := List.maximum_le_of_forall_le fun a ha =>
      List.le_maximum_of_mem' (h.mem_iff.mp ha)
    have h2 : l₂.maximum ≤ l₁.maximum := List.maximum_le_of_forall_le fun a ha =>
      List.le_maximum_of_mem' (h.mem_iff.mpr ha)
    exact h1.antisymm h2
  simp [pyMax, hmax]

theorem pyMin_all_eq {l : List ℚ} {v : ℚ} (h : l ≠ []) (hall : ∀ a ∈ l, a = v) :
    pyMin l = v :=
  hall _ (pyMin_mem h)

theorem pyMax_all_eq {l : List ℚ} {v : ℚ} (h : l ≠ []) (hall : ∀ a ∈ l, a = v) :
    pyMax l = v :=
  hall _ (pyMax_mem h)

-- ==========================================
-- C2: dynamic weights are a probability vector
-- ==========================================

/-- Claim C2: for every non-negative bias-factor triple and every environment and
circuit context with non-negative track temperature, abrasivity, grid position and
rain, safety-car and virtual-safety-car probabilities, the four weights returned by
calculate_dynamic_weights are each non-negative and sum to exactly 1, and the
normalizing denominator total_w is nonzero because w1 is fixed at 1. -/
theorem dynamic_weights_sum_one (e : F1DecisionEngine)
    (htemp : 0 ≤ e.env.track_temp) (habr : 0 ≤ e.circuit.abrasivity)
    (hgrid : 0 ≤ e.env.grid_position) (hrain : 0 ≤ e.env.rain_prob)
    (hsc : 0 ≤ e.env.sc_prob) (hvsc : 0 ≤ e.env.vsc_prob)
    (hks : 0 ≤ e.k_factors.safety) (hkt : 0 ≤ e.k_factors.traffic)
    (hkr : 0 ≤ e.k_factors.robust) :
    0 ≤ (calculate_dynamic_weights e).alpha_1 ∧
    0 ≤ (calculate_dynamic_weights e).alpha_2 ∧
    0 ≤ (calculate_dynamic_weights e).alpha_3 ∧
    0 ≤ (calculate_dynamic_weights e).alpha_4 ∧
    (calculate_dynamic_weights e).alpha_1 + (calculate_dynamic_weights e).alpha_2
      + (calculate_dynamic_weights e).alpha_3 + (calculate_dynamic_weights e).alpha_4 = 1 ∧
    total_w e ≠ 0 := by
  have hw2 : 0 ≤ w2_raw e := by
    unfold w2_raw
    positivity
  have hw3 : 0 ≤ w3_raw e := by
    unfold w3_raw
    positivity
  have hw4 : 0 ≤ w4_raw e := by
    have : 0 ≤ e.env.rain_prob + e.env.sc_prob + e.env.vsc_prob := by linarith
    unfold w4_raw
    positivity
  have hT : (1 : ℚ) ≤ total_w e := by
    unfold total_w
    linarith
  have hT0 : total_w e ≠ 0 := by linarith
  have hTpos : 0 < total_w e := by linarith
  refine ⟨?_, ?_, ?_, ?_, ?_, hT0⟩
  · exact div_nonneg zero_le_one hTpos.le
  · exact div_nonneg hw2 hTpos.le
  · exact div_nonneg hw3 hTpos.le
  · exact div_nonneg hw4 hTpos.le
  · show 1 / total_w e + w2_raw e / total_w e + w3_raw e / total_w e
      + w4_raw e / total_w e = 1
    rw [div_add_div_same, div_add_div_same, div_add_div_same]
    rw [show (1 : ℚ) + w2_raw e + w3_raw e + w4_raw e = total_w e from rfl]
    exact div_self hT0

/-- Witness for C2 at the concrete engine e_gen. -/
theorem dynamic_weights_sum_one_witness :
    0 ≤ (calculate_dynamic_weights e_gen).alpha_1 ∧
    0 ≤ (calculate_dynamic_weights e_gen).alpha_2 ∧
    0 ≤ (calculate_dynamic_weights e_gen).alpha_3 ∧
    0 ≤ (calculate_dynamic_weights e_gen).alpha_4 ∧
    (calculate_dynamic_weights e_gen).alpha_1 + (calculate_dynamic_weights e_gen).alpha_2
      + (calculate_dynamic_weights e_gen).alpha_3 + (calculate_dynamic_weights e_gen).alpha_4 = 1 ∧
    total_w e_gen ≠ 0 :=
  dynamic_weights_sum_one e_gen (by norm_num [e_gen]) (by norm_num [e_gen])
    (by norm_num [e_gen]) (by norm_num [e_gen]) (by norm_num [e_gen])
    (by norm_num [e_gen]) (by norm_num [e_gen]) (by norm_num [e_gen])
    (by norm_num [e_gen])

-- ==========================================
-- C4: fuel model never clamps and never errors on fuel exhaustion
-- ==========================================

theorem c1_loop_ok_aux (e : F1DecisionEngine) : ∀ (plan : List Stint) (b : Bool)
    (time fuel : ℚ), (∀ st ∈ plan, (e.tires st.compound).isSome) →
    ∃ t, c1_loop e plan b time fuel = .ok t := by
  intro plan
  induction plan with
  | nil => exact fun b time fuel _ => ⟨time, rfl⟩
  | cons st rest ih =>
    intro b time fuel h
    obtain ⟨tire, htire⟩ := Option.isSome_iff_exists.mp (h st (List.mem_cons_self st rest))
    simp only [c1_loop, htire]
    exact ih false _ _ fun s hs => h s (List.mem_cons_of_mem _ hs)

/- The fuel masses of the whole plan in closed form: lap j of the race uses
   fuel_start - j * fuel_burn, with no clamping anywhere. -/
theorem fuel_masses_closed (car : CarParams) : ∀ (plan : List Stint) (F : ℚ),
    fuel_masses car plan F
      = (List.range ((plan.map (·.laps)).sum)).map
          (fun (j : ℕ) => F - (j : ℚ) * car.fuel_burn_kg_lap) := by
  intro plan
  induction plan with
  | nil => intro F; simp [fuel_masses]
  | cons st rest ih =>
    intro F
    rw [List.map_cons, List.sum_cons, List.range_add, List.map_append]
    rw [fuel_masses, ih]
    congr 1
    rw [List.map_map]
    apply List.map_congr_left
    intro j hj
    simp only [Function.comp_apply]
    push_cast
    ring

/-- Claim C4 (amended): for every strategy plan over compounds present in the tire
table, the deterministic C1 model raises no error, and the fuel mass used in the
per-lap fuel term decreases by exactly car.fuel_burn_kg_lap each lap — the mass on
overall lap j is fuel_start - j * fuel_burn with no clamping, so when the plan's
total fuel burn exceeds the starting fuel the term goes negative rather than being
clamped at 0. -/
theorem c1_time_no_clamp (e : F1DecisionEngine) (plan : List Stint)
    (h : ∀ st ∈ plan, (e.tires st.compound).isSome) :
    (∃ t, c1_time e plan = .ok t) ∧
    fuel_masses e.car plan e.car.fuel_start_kg
      = (List.range ((plan.map (·.laps)).sum)).map
          (fun (j : ℕ) => e.car.fuel_start_kg - (j : ℚ) * e.car.fuel_burn_kg_lap) :=
  ⟨c1_loop_ok_aux e plan true 0 e.car.fuel_start_kg h,
    fuel_masses_closed e.car plan e.car.fuel_start_kg⟩

/-- Witness for the amended C4 at the concrete over-burning plan. -/
theorem c1_time_no_clamp_witness :
    (∃ t, c1_time e_fuel plan_fuel = .ok t) ∧
    fuel_masses e_fuel.car plan_fuel e_fuel.car.fuel_start_kg
      = (List.range ((plan_fuel.map (·.laps)).sum)).map
          (fun (j : ℕ) => e_fuel.car.fuel_start_kg - (j : ℚ) * e_fuel.car.fuel_burn_kg_lap) :=
  c1_time_no_clamp e_fuel plan_fuel (by decide)

/-- Claim C4 counterexample: with 1 kg of fuel, 1 kg/lap burn and fuel effect 1, a
single 3-lap stint feeds the fuel masses 1, 0, -1 into the per-lap fuel term: the
third mass is negative, no error is raised, and the computed total 0 differs from
the total 1 of the spec-modelled clamped variant — so fuel is not clamped at 0. -/
theorem c1_time_clamp_counterexample :
    c1_time e_fuel plan_fuel = .ok 0
    ∧ fuel_masses e_fuel.car plan_fuel e_fuel.car.fuel_start_kg = [1, 0, -1]
    ∧ (-1 : ℚ) < 0
    ∧ c1_time_clamped e_fuel plan_fuel = .ok 1 := by
  refine ⟨?_, ?_, by norm_num, ?_⟩
  · show c1_loop e_fuel [⟨"SOFT", 3⟩] true 0 e_fuel.car.fuel_start_kg = .ok 0
    norm_num [c1_loop, e_fuel, List.range_succ]
  · norm_num [fuel_masses, e_fuel, plan_fuel, List.range_succ]
  · show c1_loop_clamped e_fuel [⟨"SOFT", 3⟩] true 0 e_fuel.car.fuel_start_kg = .ok 1
    norm_num [c1_loop_clamped, e_fuel, List.range_succ]

-- ==========================================
-- C8: unknown compound lookups fail loudly
-- ==========================================

theorem c1_loop_error_aux (e : F1DecisionEngine) : ∀ (plan : List Stint) (b : Bool)
    (time fuel : ℚ), (∃ st ∈ plan, e.tires st.compound = none) →
    ∃ msg, c1_loop e plan b time fuel = .error msg := by
  intro plan
  induction plan with
  | nil =>
    rintro b time fuel ⟨st, hst, -⟩
    exact absurd hst (List.not_mem_nil st)
  | cons s rest ih =>
    rintro b time fuel ⟨st, hst, hnone⟩
    rcases List.mem_cons.mp hst with rfl | hmem
    · simp only [c1_loop, hnone]
      exact ⟨_, rfl⟩
    · cases htire : e.tires s.compound with
      | none =>
        simp only [c1_loop, htire]
        exact ⟨_, rfl⟩
      | some tire =>
        simp only [c1_loop, htire]
        exact ih false _ _ ⟨st, hmem, hnone⟩

/-- Claim C8: a compound identifier absent from the compound table makes
simulate_stint fail immediately with its lookup error, and a stint compound absent
from the engine tire table makes the criteria calculator C1 evaluation fail with a
lookup error surfaced to the caller; neither silently substitutes a default. -/
theorem unknown_compound_lookup_error (comp : String) (laps age : ℕ)
    (noise powf : ℕ → ℚ) (e : F1DecisionEngine) (plan : List Stint) (st : Stint)
    (h1 : oracle_compounds (strUpper comp) = none)
    (h2 : st ∈ plan) (h3 : e.tires st.compound = none) :
    simulate_stint comp laps age noise powf = .error ("Unknown Compound: " ++ comp)
    ∧ ∃ msg, c1_time e plan = .error msg := by
  constructor
  · simp [simulate_stint, h1]
  · exact c1_loop_error_aux e plan true 0 e.car.fuel_start_kg ⟨st, h2, h3⟩

/-- Witness for C8: the compound INTER is unknown to the oracle table and MEDIUM is
missing from the e_fuel tire table. -/
theorem unknown_compound_lookup_error_witness :
    simulate_stint "INTER" 5 0 (fun _ => 0) (fun _ => 0)
        = .error ("Unknown Compound: " ++ "INTER")
    ∧ ∃ msg, c1_time e_fuel plan_bad = .error msg :=
  unknown_compound_lookup_error "INTER" 5 0 (fun _ => 0) (fun _ => 0) e_fuel plan_bad
    ⟨"MEDIUM", 2⟩ (by decide) (by decide) (by decide)

-- ==========================================
-- Ranking lemmas shared by C1, C6, C7
-- ==========================================

theorem scoreStrat_idem (w : WeightVector) (mn rng : ℚ) (s : EvalStrategy) :
    scoreStrat w mn rng (scoreStrat w mn rng s) = scoreStrat w mn rng s := rfl

theorem map_id_of_mem {α : Type} {l : List α} {f : α → α} (h : ∀ a ∈ l, f a = a) :
    l.map f = l := by
  induction l with
  | nil => rfl
  | cons a t ih =>
    rw [List.map_cons, h a (List.mem_cons_self a t),
      ih fun b hb => h b (List.mem_cons_of_mem a hb)]

theorem calculate_utility_eq (e : F1DecisionEngine) (ss : List EvalStrategy)
    (h : ss ≠ []) :
    calculate_utility e ss = insertionSort utLE
      (ss.map (scoreStrat (calculate_dynamic_weights e) (c1_min ss) (c1_range ss))) := by
  rw [calculate_utility, if_neg (by simp [h])]

theorem mem_calculate_utility {e : F1DecisionEngine} {ss : List EvalStrategy}
    {t : EvalStrategy} (h : ss ≠ []) :
    t ∈ calculate_utility e ss ↔
      t ∈ ss.map (scoreStrat (calculate_dynamic_weights e) (c1_min ss) (c1_range ss)) := by
  rw [calculate_utility_eq e ss h]
  exact (List.perm_insertionSort utLE _).mem_iff

-- ==========================================
-- C1: utility formula and ascending order
-- ==========================================

/-- Claim C1: for every non-empty batch, calculate_utility assigns each member the
utility alpha_1 * normC1 + alpha_2 * min(10, C2/10) + alpha_3 * C3 - alpha_4 * C4
(C4 subtracted as a benefit), where normC1 = (C1 - batch min) / batch range * 10,
and returns the batch sorted with Utility values non-decreasing in list order. -/
theorem calculate_utility_formula_sorted (e : F1DecisionEngine) (ss : List EvalStrategy)
    (h : ss ≠ []) :
    (∀ t ∈ calculate_utility e ss,
      t.utility = (calculate_dynamic_weights e).alpha_1
            * ((t.c1_time - c1_min ss) / c1_range ss * 10)
        + (calculate_dynamic_weights e).alpha_2 * min 10 (t.c2_risk / 10)
        + (calculate_dynamic_weights e).alpha_3 * t.c3_traffic
        - (calculate_dynamic_weights e).alpha_4 * t.c4_flex)
    ∧ (calculate_utility e ss).Pairwise (fun a b => a.utility ≤ b.utility) := by
  constructor
  · intro t ht
    rw [mem_calculate_utility h] at ht
    obtain ⟨s, hs, rfl⟩ := List.mem_map.mp ht
    rfl
  · rw [calculate_utility_eq e ss h]
    exact List.sorted_insertionSort utLE _

/-- Witness for C1 at a concrete two-member batch. -/
theorem calculate_utility_formula_sorted_witness :
    (∀ t ∈ calculate_utility e_gen [s_a, s_b],
      t.utility = (calculate_dynamic_weights e_gen).alpha_1
            * ((t.c1_time - c1_min [s_a, s_b]) / c1_range [s_a, s_b] * 10)
        + (calculate_dynamic_weights e_gen).alpha_2 * min 10 (t.c2_risk / 10)
        + (calculate_dynamic_weights e_gen).alpha_3 * t.c3_traffic
        - (calculate_dynamic_weights e_gen).alpha_4 * t.c4_flex)
    ∧ (calculate_utility e_gen [s_a, s_b]).Pairwise (fun a b => a.utility ≤ b.utility) :=
  calculate_utility_formula_sorted e_gen [s_a, s_b] (by simp)

-- ==========================================
-- C6: degenerate batch normalization
-- ==========================================

/-- Claim C6: for every non-empty batch whose members all share the same raw C1
time, the C1 normalization divisor is replaced by 1 and every member of the ranked
output has normalized C1 equal to 0; the normalizer performs no division by zero. -/
theorem calculate_utility_degenerate (e : F1DecisionEngine) (ss : List EvalStrategy)
    (v : ℚ) (h : ss ≠ []) (hall : ∀ s ∈ ss, s.c1_time = v) :
    c1_range ss = 1 ∧ ∀ t ∈ calculate_utility e ss, t.normalized.c1 = 0 := by
  have hlist : ∀ a ∈ c1_list ss, a = v := by
    intro a ha
    obtain ⟨s, hs, rfl⟩ := List.mem_map.mp ha
    exact hall s hs
  have hne : c1_list ss ≠ [] := by simpa [c1_list] using h
  have hmin : c1_min ss = v := pyMin_all_eq hne hlist
  have hmax : c1_max ss = v := pyMax_all_eq hne hlist
  have hrange : c1_range ss = 1 := by simp [c1_range, hmin, hmax]
  refine ⟨hrange, ?_⟩
  intro t ht
  rw [mem_calculate_utility h] at ht
  obtain ⟨s, hs, rfl⟩ := List.mem_map.mp ht
  show (s.c1_time - c1_min ss) / c1_range ss * 10 = 0
  rw [hall s hs, hmin, hrange]
  simp

/-- Witness for C6 at a concrete batch of two strategies with equal C1. -/
theorem calculate_utility_degenerate_witness :
    c1_range [s_a, s_c] = 1 ∧
    ∀ t ∈ calculate_utility e_gen [s_a, s_c], t.normalized.c1 = 0 :=
  calculate_utility_degenerate e_gen [s_a, s_c] 451 (by simp)
    (by simp [s_a, s_c])

-- ==========================================
-- C7: ranking is idempotent
-- ==========================================

/-- Claim C7: re-applying calculate_utility to the batch it returned reproduces the
same Utility scores, the same normalized breakdown for every member and the same
order: the second application returns the first result unchanged. -/
theorem calculate_utility_idempotent (e : F1DecisionEngine) (ss : List EvalStrategy) :
    calculate_utility e (calculate_utility e ss) = calculate_utility e ss := by
  by_cases h : ss = []
  · subst h; rfl
  · have hceq := calculate_utility_eq e ss h
    have hperm : (calculate_utility e ss).Perm
        (ss.map (scoreStrat (calculate_dynamic_weights e) (c1_min ss) (c1_range ss))) := by
      rw [hceq]
      exact List.perm_insertionSort utLE _
    have houtne : calculate_utility e ss ≠ [] := by
      intro h0
      have hlen : (calculate_utility e ss).length = ss.length := by
        rw [hceq, List.length_insertionSort, List.length_map]
      rw [h0] at hlen
      exact h (List.length_eq_zero.mp hlen.symm)
    have hc1map :
        c1_list (ss.map (scoreStrat (calculate_dynamic_weights e) (c1_min ss) (c1_range ss)))
          = c1_list ss := by
      rw [c1_list, c1_list, List.map_map]
      rfl
    have hc1perm : (c1_list (calculate_utility e ss)).Perm (c1_list ss) := by
      have h1 := hperm.map (·.c1_time)
      rw [show (ss.map (scoreStrat (calculate_dynamic_weights e) (c1_min ss)
        (c1_range ss))).map (·.c1_time) = c1_list ss from hc1map] at h1
      exact h1
    have hmin : c1_min (calculate_utility e ss) = c1_min ss := pyMin_perm hc1perm
    have hmax : c1_max (calculate_utility e ss) = c1_max ss := pyMax_perm hc1perm
    have hrange : c1_range (calculate_utility e ss) = c1_range ss := by
      rw [c1_range, c1_range, hmin, hmax]
    have hfix : ∀ t ∈ calculate_utility e ss,
        scoreStrat (calculate_dynamic_weights e) (c1_min ss) (c1_range ss) t = t := by
      intro t ht
      rw [mem_calculate_utility h] at ht
      obtain ⟨s, hs, rfl⟩ := List.mem_map.mp ht
      exact scoreStrat_idem _ _ _ s
    have hsorted : List.Sorted utLE (calculate_utility e ss) := by
      rw [hceq]
      exact List.sorted_insertionSort utLE _
    rw [calculate_utility_eq e (calculate_utility e ss) houtne, hmin, hrange,
      map_id_of_mem hfix, hsorted.insertionSort_eq]

-- ==========================================
-- C10: run_strategy truncates at the race distance and never errors
-- ==========================================

theorem run_aux_length (powf : ℕ → ℚ) (noise : ℕ → ℕ → ℚ) (total : ℕ) :
    ∀ (plan : List (String × ℕ)) (idx current : ℕ) (isFirst : Bool),
    current < total →
    (∀ p ∈ plan, 1 ≤ p.2 ∧ (oracle_compounds (strUpper p.1)).isSome) →
    ∃ arr ct, run_aux powf noise total plan idx current isFirst = .ok (arr, ct)
      ∧ arr.length = min (total - current) ((plan.map (·.2)).sum) := by
  intro plan
  induction plan with
  | nil =>
    intro idx current isFirst hcur hall
    exact ⟨[], 0, rfl, by simp⟩
  | cons p rest ih =>
    obtain ⟨comp, sl⟩ := p
    intro idx current isFirst hcur hall
    obtain ⟨hsl, hsome⟩ := hall (comp, sl) (List.mem_cons_self _ _)
    obtain ⟨c, hc⟩ := Option.isSome_iff_exists.mp hsome
    have hallrest : ∀ q ∈ rest, 1 ≤ q.2 ∧ (oracle_compounds (strUpper q.1)).isSome :=
      fun q hq => hall q (List.mem_cons_of_mem _ hq)
    by_cases htr : current + sl > total
    · -- truncated stint: sl2 = total - current, and the loop breaks after it
      have hx : ∃ x ts, (List.range (total - current)).map
          (stint_lap_time c 0 (noise idx) powf) = x :: ts := by
        cases hr : (List.range (total - current)).map
            (stint_lap_time c 0 (noise idx) powf) with
        | nil =>
          have := congrArg List.length hr
          simp at this
          omega
        | cons x ts => exact ⟨x, ts, rfl⟩
      obtain ⟨x, ts, hx⟩ := hx
      have hlen : ts.length + 1 = total - current := by
        have := congrArg List.length hx
        simpa using this.symm
      cases isFirst with
      | true =>
        refine ⟨x :: ts, (x :: ts).sum, ?_, ?_⟩
        · simp only [run_aux, simulate_stint, hc, if_pos htr, hx]
          rw [if_pos (by omega)]
        · simp only [List.length_cons, List.map_cons, List.sum_cons]
          omega
      | false =>
        refine ⟨(x + PIT_LOSS) :: ts, PIT_LOSS + ((x + PIT_LOSS) :: ts).sum, ?_, ?_⟩
        · simp only [run_aux, simulate_stint, hc, if_pos htr, hx]
          rw [if_pos (by omega)]
        · simp only [List.length_cons, List.map_cons, List.sum_cons]
          omega
    · -- untruncated stint: sl2 = sl
      have hx : ∃ x ts, (List.range sl).map
          (stint_lap_time c 0 (noise idx) powf) = x :: ts := by
        cases hr : (List.range sl).map (stint_lap_time c 0 (noise idx) powf) with
        | nil =>
          have := congrArg List.length hr
          simp at this
          omega
        | cons x ts => exact ⟨x, ts, rfl⟩
      obtain ⟨x, ts, hx⟩ := hx
      have hlen : ts.length + 1 = sl := by
        have := congrArg List.length hx
        simpa using this.symm
      by_cases hbr : current + sl ≥ total
      · -- the stint exactly reaches the race distance
        cases isFirst with
        | true =>
          refine ⟨x :: ts, (x :: ts).sum, ?_, ?_⟩
          · simp only [run_aux, simulate_stint, hc, if_neg htr, hx]
            rw [if_pos hbr]
          · simp only [List.length_cons, List.map_cons, List.sum_cons]
            omega
        | false =>
          refine ⟨(x + PIT_LOSS) :: ts, PIT_LOSS + ((x + PIT_LOSS) :: ts).sum, ?_, ?_⟩
          · simp only [run_aux, simulate_stint, hc, if_neg htr, hx]
            rw [if_pos hbr]
          · simp only [List.length_cons, List.map_cons, List.sum_cons]
            omega
      · -- the race continues after this stint
        obtain ⟨arr, ct, hrec, hreclen⟩ :=
          ih (idx + 1) (current + sl) false (by omega) hallrest
        cases isFirst with
        | true =>
          refine ⟨(x :: ts) ++ arr, (x :: ts).sum + ct, ?_, ?_⟩
          · simp only [run_aux, simulate_stint, hc, if_neg htr, hx]
            rw [if_neg hbr, hrec]
          · simp only [List.length_append, List.length_cons, List.map_cons,
              List.sum_cons]
            omega
        | false =>
          refine ⟨((x + PIT_LOSS) :: ts) ++ arr, PIT_LOSS + ((x + PIT_LOSS) :: ts).sum + ct,
            ?_, ?_⟩
          · simp only [run_aux, simulate_stint, hc, if_neg htr, hx]
            rw [if_neg hbr, hrec]
          · simp only [List.length_append, List.length_cons, List.map_cons,
              List.sum_cons]
            omega

/-- Claim C10: for every strategy plan with positive stint lap counts over known
compounds and every positive race distance, run_strategy raises no error even when
the plan is over-length or under-length: a stint crossing the race distance is
truncated and the loop stops at total_laps, so the per-lap array has length
min(total_laps, sum of the plan's lap counts). -/
theorem run_strategy_length (plan : List (String × ℕ)) (total : ℕ)
    (noise : ℕ → ℕ → ℚ) (powf : ℕ → ℚ) (h1 : 0 < total)
    (h2 : ∀ p ∈ plan, 1 ≤ p.2 ∧ (oracle_compounds (strUpper p.1)).isSome) :
    ∃ arr ct, run_strategy plan total noise powf = .ok (arr, ct)
      ∧ arr.length = min total ((plan.map (·.2)).sum) := by
  have h := run_aux_length powf noise total plan 0 0 true h1 h2
  simpa [run_strategy] using h

/-- Witness for C10: a 7-lap plan over a 5-lap race returns 5 lap times. -/
theorem run_strategy_length_witness :
    ∃ arr ct, run_strategy [("SOFT", 3), ("HARD", 4)] 5 (fun _ _ => 0) (fun _ => 0)
        = .ok (arr, ct)
      ∧ arr.length = min 5 (([("SOFT", 3), ("HARD", 4)].map (·.2)).sum) :=
  run_strategy_length [("SOFT", 3), ("HARD", 4)] 5 (fun _ _ => 0) (fun _ => 0)
    (by decide) (by decide)

-- ==========================================
-- C5: the cumulative total counts each pit loss twice
-- ==========================================

/-- Claim C5 (failing-input evidence for the code bug): in a 4-lap race with the
plan SOFT(2), HARD(2), zero noise and the exact age powers 0 and 1 (for ages 0 and
1 the float power age ** 1.3 is exactly age), the raw stint lap-time sums are
180.085 and 182.205, yet run_strategy returns the cumulative total 407.29 =
180.085 + 182.205 + 2 * PIT_LOSS: the single stop contributes its 22.5 s pit loss
twice, once directly and once through the mutated first lap of the second stint,
where the claim requires it to be counted exactly once. -/
theorem run_strategy_double_pit :
    run_strategy [("SOFT", 2), ("HARD", 2)] 4 (fun _ _ => 0) (fun n => (n : ℚ))
        = .ok ([90, 90.085, 113.6, 91.105], 407.29)
    ∧ (407.29 : ℚ) = (180.085 + 182.205) + 2 * PIT_LOSS
    ∧ (407.29 : ℚ) ≠ (180.085 + 182.205) + PIT_LOSS := by
  have hS : strUpper "SOFT" = "SOFT" := by decide
  have hH : strUpper "HARD" = "HARD" := by decide
  have hcS : oracle_compounds "SOFT" = some ⟨"Soft", 0, 12/100, 20⟩ := rfl
  have hcH : oracle_compounds "HARD" = some ⟨"Hard", 11/10, 4/100, 55⟩ := rfl
  have hr2 : List.range 2 = [0, 1] := rfl
  refine ⟨?_, by norm_num [PIT_LOSS], by norm_num [PIT_LOSS]⟩
  simp only [run_strategy, run_aux, simulate_stint, hS, hH, hcS, hcH, hr2,
    stint_lap_time, FUEL_CORRECTION, PIT_LOSS, List.map_cons, List.map_nil]
  norm_num [hr2, stint_lap_time, FUEL_CORRECTION, List.sum_cons, List.sum_nil]

-- ==========================================
-- C9: the Monte-Carlo recommendation marks exactly the lowest mean
-- ==========================================

theorem mc_mark_mean_mem (mv : ℚ) : ∀ (ms : List (String × ℚ)) (p : String × SimStats),
    p ∈ mc_mark mv ms → p.2.mean_time ∈ ms.map (·.2) := by
  intro ms
  induction ms with
  | nil => intro p hp; simp [mc_mark] at hp
  | cons q rest ih =>
    obtain ⟨nm, mu⟩ := q
    intro p hp
    by_cases hq : mu = mv
    · simp only [mc_mark, if_pos hq] at hp
      rcases List.mem_cons.mp hp with rfl | hmem
      · simp
      · obtain ⟨r, hr, rfl⟩ := List.mem_map.mp hmem
        simp only [List.map_cons]
        exact List.mem_cons_of_mem _ (List.mem_map_of_mem (·.2) hr)
    · simp only [mc_mark, if_neg hq] at hp
      rcases List.mem_cons.mp hp with rfl | hmem
      · simp
      · simp only [List.map_cons]
        exact List.mem_cons_of_mem _ (ih p hmem)

theorem mc_mark_count (mv : ℚ) : ∀ (ms : List (String × ℚ)),
    (∃ p ∈ ms, p.2 = mv) →
    (mc_mark mv ms).countP (fun p => p.2.is_recommended) = 1 := by
  intro ms
  induction ms with
  | nil =>
    rintro ⟨p, hp, -⟩
    exact absurd hp (List.not_mem_nil p)
  | cons q rest ih =>
    obtain ⟨nm, mu⟩ := q
    rintro ⟨p, hp, hpv⟩
    by_cases hq : mu = mv
    · simp only [mc_mark, if_pos hq]
      rw [List.countP_cons]
      have h0 : (rest.map (fun r => (r.1, (⟨r.2, false⟩ : SimStats)))).countP
          (fun p => p.2.is_recommended) = 0 := by
        rw [List.countP_eq_zero]
        intro a ha
        obtain ⟨r, hr, rfl⟩ := List.mem_map.mp ha
        simp
      simp [h0]
    · simp only [mc_mark, if_neg hq]
      rw [List.countP_cons]
      have hrest : ∃ p ∈ rest, p.2 = mv := by
        rcases List.mem_cons.mp hp with rfl | hmem
        · exact absurd hpv hq
        · exact ⟨p, hmem, hpv⟩
      simp [ih hrest]

theorem mc_mark_rec_min (mv : ℚ) : ∀ (ms : List (String × ℚ)) (p : String × SimStats),
    p ∈ mc_mark mv ms → p.2.is_recommended = true → p.2.mean_time = mv := by
  intro ms
  induction ms with
  | nil => intro p hp; simp [mc_mark] at hp
  | cons q rest ih =>
    obtain ⟨nm, mu⟩ := q
    intro p hp hrec
    by_cases hq : mu = mv
    · simp only [mc_mark, if_pos hq] at hp
      rcases List.mem_cons.mp hp with rfl | hmem
      · simpa using hq
      · obtain ⟨r, hr, rfl⟩ := List.mem_map.mp hmem
        simp at hrec
    · simp only [mc_mark, if_neg hq] at hp
      rcases List.mem_cons.mp hp with rfl | hmem
      · simp at hrec
      · exact ih p hmem hrec

theorem mc_means_ne_nil {powf : ℕ → ℚ} {noise : ℕ → ℕ → ℕ → ℕ → ℚ}
    {total n_sims k : ℕ} {s : String × List (String × ℕ)}
    {rest : List (String × List (String × ℕ))} {ms : List (String × ℚ)}
    (h : mc_means powf noise total n_sims (s :: rest) k = .ok ms) : ms ≠ [] := by
  obtain ⟨nm, plan⟩ := s
  simp only [mc_means] at h
  cases h1 : simTotals powf (noise k) total plan 0 n_sims with
  | error msg => rw [h1] at h; exact absurd h (by simp)
  | ok tots =>
    rw [h1] at h
    cases h2 : mc_means powf noise total n_sims rest (k + 1) with
    | error msg => rw [h2] at h; exact absurd h (by simp)
    | ok ms2 =>
      rw [h2] at h
      have := Except.ok.inj h
      rw [← this]
      exact List.cons_ne_nil _ _

/-- Claim C9: for every non-empty set of named strategies with distinct names, a
successful monte_carlo_simulation marks exactly one strategy as recommended, and
the marked strategy's simulated mean total time is the lowest mean of the whole
named set — two strategies with distinct means are never both or neither marked. -/
theorem monte_carlo_recommends_lowest_mean (powf : ℕ → ℚ) (noise : ℕ → ℕ → ℕ → ℕ → ℚ)
    (strategies : List (String × List (String × ℕ))) (n_sims total : ℕ)
    (res : List (String × SimStats))
    (h1 : strategies ≠ [])
    (h2 : (strategies.map (·.1)).Nodup)
    (h3 : monte_carlo_simulation powf noise strategies n_sims total = .ok res) :
    res.countP (fun p => p.2.is_recommended) = 1
    ∧ ∀ p ∈ res, p.2.is_recommended = true →
        ∀ q ∈ res, p.2.mean_time ≤ q.2.mean_time := by
  simp only [monte_carlo_simulation] at h3
  cases hms : mc_means powf noise total n_sims strategies 0 with
  | error msg => rw [hms] at h3; exact absurd h3 (by simp)
  | ok ms =>
    rw [hms] at h3
    have hres : mc_mark (pyMin (ms.map (·.2))) ms = res := Except.ok.inj h3
    have hmsne : ms ≠ [] := by
      obtain ⟨s, rest, rfl⟩ := List.exists_cons_of_ne_nil h1
      exact mc_means_ne_nil hms
    have hmapne : ms.map (·.2) ≠ [] := by
      intro h0
      exact hmsne (List.map_eq_nil_iff.mp h0)
    obtain ⟨pm, hpm, hpmv⟩ := List.mem_map.mp (pyMin_mem hmapne)
    rw [← hres]
    refine ⟨mc_mark_count _ ms ⟨pm, hpm, hpmv⟩, ?_⟩
    intro p hp hrec q hq
    rw [mc_mark_rec_min _ ms p hp hrec]
    exact pyMin_le (mc_mark_mean_mem _ ms q hq)

/-- Witness for C9: two one-stint strategies over one lap with zero noise; SOFT is
0.6 s/lap faster than MEDIUM, so exactly the first is recommended. -/
theorem monte_carlo_recommends_lowest_mean_witness :
    mc_res.countP (fun p => p.2.is_recommended) = 1
    ∧ ∀ p ∈ mc_res, p.2.is_recommended = true →
        ∀ q ∈ mc_res, p.2.mean_time ≤ q.2.mean_time :=
  monte_carlo_recommends_lowest_mean (fun _ => 0) (fun _ _ _ _ => 0) mc_strats 1 1
    mc_res (by simp [mc_strats]) (by simp [mc_strats])
    (by
      have hS : strUpper "SOFT" = "SOFT" := by decide
      have hM : strUpper "MEDIUM" = "MEDIUM" := by decide
      have hcS : oracle_compounds "SOFT" = some ⟨"Soft", 0, 12/100, 20⟩ := rfl
      have hcM : oracle_compounds "MEDIUM" = some ⟨"Medium", 6/10, 8/100, 35⟩ := rfl
      have hr1 : List.range 1 = [0] := rfl
      have hpm : pyMin [(90 : ℚ), 453/5] = 90 := by
        rw [pyMin, List.minimum_cons, List.minimum_singleton, ← WithTop.coe_min,
          min_eq_left (by norm_num : (90 : ℚ) ≤ 453/5)]
        rfl
      simp only [mc_strats, monte_carlo_simulation, mc_means, simTotals, run_strategy,
        run_aux, simulate_stint, hS, hM, hcS, hcM, hr1, stint_lap_time,
        FUEL_CORRECTION, List.map_cons, List.map_nil]
      norm_num [hr1, stint_lap_time, FUEL_CORRECTION, List.sum_cons, List.sum_nil]
      norm_num [hpm, mc_mark, mc_res])

-- ==========================================
-- C3: generator feasibility lemmas
-- ==========================================

theorem sample2_ne (d1 d2 : ℕ) : (sample2 d1 d2).1 ≠ (sample2 d1 d2).2 := by
  have h1 : d1 % 3 = 0 ∨ d1 % 3 = 1 ∨ d1 % 3 = 2 := by omega
  have h2 : d2 % 2 = 0 ∨ d2 % 2 = 1 := by omega
  rcases h1 with h1 | h1 | h1 <;> rcases h2 with h2 | h2 <;>
    simp [sample2, h1, h2, gen_compounds]

theorem evaluate_strategy_stints {e : F1DecisionEngine} {sd : List Stint}
    {v : EvalStrategy} (h : evaluate_strategy e sd = .ok v) : v.stints = sd := by
  simp only [evaluate_strategy] at h
  split at h
  · exact absurd h (by simp)
  split at h
  · exact absurd h (by simp)
  split at h
  · exact absurd h (by simp)
  rw [← Except.ok.inj h]

theorem oneStop_spec {e : F1DecisionEngine} {d1 d2 d3 : ℕ} {v : EvalStrategy}
    (h : oneStopCandidate e d1 d2 d3 = some v) :
    ∃ c1 c2 l1 l2 t1 t2,
      v.stints = [⟨c1, l1⟩, ⟨c2, l2⟩]
      ∧ e.tires c1 = some t1 ∧ e.tires c2 = some t2
      ∧ l1 ≤ t1.max_life ∧ l2 ≤ t2.max_life
      ∧ c1 ≠ c2 := by
  simp only [oneStopCandidate] at h
  split at h
  · rename_i t1 t2 ht1 ht2
    split at h
    · exact absurd h (by simp)
    rename_i hl1
    split at h
    · exact absurd h (by simp)
    rename_i hl2
    split at h
    · rename_i v0 hev
      obtain rfl := Option.some.inj h
      exact ⟨(sample2 d2 d3).1, (sample2 d2 d3).2, _, _, t1, t2,
        evaluate_strategy_stints hev, ht1, ht2, by omega, by omega, sample2_ne d2 d3⟩
    · exact absurd h (by simp)
  · exact absurd h (by simp)

theorem twoStop_spec {e : F1DecisionEngine} {d1 d2 d3 d4 d5 : ℕ} {v : EvalStrategy}
    (h : twoStopCandidate e d1 d2 d3 d4 d5 = some v) :
    ∃ ca cb cc l1 l2 l3 t1 t2 t3,
      v.stints = [⟨ca, l1⟩, ⟨cb, l2⟩, ⟨cc, l3⟩]
      ∧ e.tires ca = some t1 ∧ e.tires cb = some t2 ∧ e.tires cc = some t3
      ∧ l1 ≤ t1.max_life ∧ l2 ≤ t2.max_life ∧ l3 ≤ t3.max_life
      ∧ 5 ≤ l1 ∧ 5 ≤ l2 ∧ 5 ≤ l3
      ∧ (ca ≠ cb ∨ cb ≠ cc) := by
  simp only [twoStopCandidate] at h
  split at h
  · exact absurd h (by simp)
  rename_i hge
  push_neg at hge
  obtain ⟨hg1, hg2, hg3⟩ := hge
  split at h
  · exact absurd h (by simp)
  rename_i hdup
  split at h
  · rename_i t1 t2 t3 ht1 ht2 ht3
    split at h
    · exact absurd h (by simp)
    rename_i hl1
    split at h
    · exact absurd h (by simp)
    rename_i hl2
    split at h
    · exact absurd h (by simp)
    rename_i hl3
    split at h
    · rename_i v0 hev
      obtain rfl := Option.some.inj h
      refine ⟨choice1 d3, choice1 d4, choice1 d5, _, _, _, t1, t2, t3,
        evaluate_strategy_stints hev, ht1, ht2, ht3,
        by omega, by omega, by omega, by omega, by omega, by omega, ?_⟩
      by_cases hab : choice1 d3 = choice1 d4
      · exact Or.inr fun hbc => hdup ⟨hab, hbc⟩
      · exact Or.inl hab
    · exact absurd h (by simp)
  · exact absurd h (by simp)

theorem uniqueTopAux_subset : ∀ (l : List EvalStrategy) (seen : List String) (cnt : ℕ)
    (s : EvalStrategy), s ∈ uniqueTopAux l seen cnt → s ∈ l := by
  intro l
  induction l with
  | nil => intro seen cnt s hs; simp [uniqueTopAux] at hs
  | cons r rest ih =>
    intro seen cnt s hs
    simp only [uniqueTopAux] at hs
    split at hs
    · exact List.mem_cons_of_mem r (ih seen cnt s hs)
    · split at hs
      · rw [List.mem_singleton.mp hs]
        exact List.mem_cons_self r rest
      · rcases List.mem_cons.mp hs with rfl | hmem
        · exact List.mem_cons_self _ _
        · exact List.mem_cons_of_mem r (ih _ _ s hmem)

/-- Claim C3 (amended): every strategy returned by the candidate generator has all
stints within their compound's max_life and uses at least 2 distinct compounds, and
every stint of a 2-stop (three-stint) candidate has at least 5 laps; 1-stop
candidates are bounded only by the random pit window, so their stints may be
shorter than 5 laps. -/
theorem generate_feasible (e : F1DecisionEngine) (n_gen : ℕ) (rng : ℕ → ℕ)
    (hS : (e.tires "SOFT").isSome) (hM : (e.tires "MEDIUM").isSome)
    (hH : (e.tires "HARD").isSome) :
    ∀ s ∈ generate_optimal_strategies e n_gen rng,
      (∀ st ∈ s.stints, ∃ t, e.tires st.compound = some t ∧ st.laps ≤ t.max_life)
      ∧ (∃ st1 ∈ s.stints, ∃ st2 ∈ s.stints, st1.compound ≠ st2.compound)
      ∧ (s.stints.length = 3 → ∀ st ∈ s.stints, 5 ≤ st.laps) := by
  intro s hs
  simp only [generate_optimal_strategies] at hs
  have hrank := uniqueTopAux_subset _ _ _ s hs
  set cands := ((List.range (n_gen / 2)).filterMap
      (fun j => oneStopCandidate e (rng (3 * j)) (rng (3 * j + 1)) (rng (3 * j + 2))))
    ++ ((List.range (n_gen / 2)).filterMap
      (fun j => twoStopCandidate e (rng (3 * (n_gen / 2) + 5 * j))
        (rng (3 * (n_gen / 2) + 5 * j + 1)) (rng (3 * (n_gen / 2) + 5 * j + 2))
        (rng (3 * (n_gen / 2) + 5 * j + 3)) (rng (3 * (n_gen / 2) + 5 * j + 4)))) with hcands
  by_cases hne : cands = []
  · rw [hne] at hrank
    simp [calculate_utility] at hrank
  · rw [mem_calculate_utility hne] at hrank
    obtain ⟨s0, hs0, rfl⟩ := List.mem_map.mp hrank
    have hstints : (scoreStrat (calculate_dynamic_weights e) (c1_min cands)
        (c1_range cands) s0).stints = s0.stints := rfl
    rw [hstints]
    rcases List.mem_append.mp hs0 with hone | htwo
    · obtain ⟨j, hj, hcand⟩ := List.mem_filterMap.mp hone
      obtain ⟨c1, c2, l1, l2, t1, t2, hst, ht1, ht2, hb1, hb2, hne12⟩ := oneStop_spec hcand
      rw [hst]
      refine ⟨?_, ?_, ?_⟩
      · intro st hstm
        rcases List.mem_cons.mp hstm with rfl | hstm
        · exact ⟨t1, ht1, hb1⟩
        rcases List.mem_cons.mp hstm with rfl | hstm
        · exact ⟨t2, ht2, hb2⟩
        · exact absurd hstm (List.not_mem_nil st)
      · exact ⟨⟨c1, l1⟩, by simp, ⟨c2, l2⟩, by simp, hne12⟩
      · intro hlen
        simp at hlen
    · obtain ⟨j, hj, hcand⟩ := List.mem_filterMap.mp htwo
      obtain ⟨ca, cb, cc, l1, l2, l3, t1, t2, t3, hst, ht1, ht2, ht3,
        hb1, hb2, hb3, h51, h52, h53, hdist⟩ := twoStop_spec hcand
      rw [hst]
      refine ⟨?_, ?_, ?_⟩
      · intro st hstm
        rcases List.mem_cons.mp hstm with rfl | hstm
        · exact ⟨t1, ht1, hb1⟩
        rcases List.mem_cons.mp hstm with rfl | hstm
        · exact ⟨t2, ht2, hb2⟩
        rcases List.mem_cons.mp hstm with rfl | hstm
        · exact ⟨t3, ht3, hb3⟩
        · exact absurd hstm (List.not_mem_nil st)
      · rcases hdist with hab | hbc
        · exact ⟨⟨ca, l1⟩, by simp, ⟨cb, l2⟩, by simp, hab⟩
        · exact ⟨⟨cb, l2⟩, by simp, ⟨cc, l3⟩, by simp, hbc⟩
      · intro hlen st hstm
        rcases List.mem_cons.mp hstm with rfl | hstm
        · exact h51
        rcases List.mem_cons.mp hstm with rfl | hstm
        · exact h52
        rcases List.mem_cons.mp hstm with rfl | hstm
        · exact h53
        · exact absurd hstm (List.not_mem_nil st)

/-- Witness for the amended C3 at the concrete engine e_gen. -/
theorem generate_feasible_witness :
    (e_gen.tires "SOFT").isSome = true
    ∧ ∀ s ∈ generate_optimal_strategies e_gen 2 (fun _ => 0),
      (∀ st ∈ s.stints, ∃ t, e_gen.tires st.compound = some t ∧ st.laps ≤ t.max_life)
      ∧ (∃ st1 ∈ s.stints, ∃ st2 ∈ s.stints, st1.compound ≠ st2.compound)
      ∧ (s.stints.length = 3 → ∀ st ∈ s.stints, 5 ≤ st.laps) :=
  ⟨by decide, generate_feasible e_gen 2 (fun _ => 0) (by decide) (by decide) (by decide)⟩

/-- Claim C3 counterexample: on the 10-lap engine e_gen with ample tire life, the
random stream of zeros makes the 1-stop branch draw pit lap 2 (window 2..7) and
the 2-stop branch discard its draw, so the generator returns exactly one strategy
whose stint lap counts are [2, 8]: its first stint has 2 < 5 laps, refuting the
5-lap minimum for returned 1-stop candidates. -/
theorem generate_short_stint_counterexample :
    (generate_optimal_strategies e_gen 2 (fun _ => 0)).map
        (fun s => s.stints.map (·.laps)) = [[2, 8]]
    ∧ ¬ (5 ≤ 2) := by
  refine ⟨?_, by omega⟩
  have hr1 : List.range 1 = [0] := rfl
  norm_num [generate_optimal_strategies, hr1, List.filterMap_cons, List.filterMap_nil,
    oneStopCandidate, twoStopCandidate, randintN, randintZ, sample2, choice1,
    gen_compounds, e_gen, evaluate_strategy, c1_time, c1_loop, c2_safety_risk,
    c2_loop, c4_flexibility_score, c4_loop, c3_traffic_score, Except.map,
    calculate_utility, c1_min, c1_max, c1_range, c1_list, pyMin, pyMax, scoreStrat,
    uniqueTopAux, List.insertionSort, List.orderedInsert, List.minimum_singleton,
    List.maximum_singleton]
